import Mathlib

/-!
Shallow embedding of the realtime ASR engine of this repository:
class `RealtimeASR` in `src/realtime_asr.py`.

Audio samples are modelled as rationals (the code uses float32 samples but
never relies on float rounding in the properties verified here).  The RMS
level of a chunk is a float square root in the code; it enters the embedding
as the already-computed level value passed to the capture callback, which is
all the verified properties depend on.  The external recognizer
`model.recognize(samples, sample_rate)` is a parameter of type
`List Rat -> Except String String`: `Except.error` models a raised exception.
Callback invocations (`on_result`, `on_segment_complete`) are modelled as
emitted lists of the strings they are called with.
-/

namespace RealtimeASR

/-- Python `int()` truncation, for the nonnegative products used in
`__init__`: `int(sample_rate * buffer_seconds)` and
`int(sample_rate * min_audio_seconds)`. -/
def pyTrunc (q : ℚ) : Nat := q.num.toNat / q.den

/-- The mutable attribute state of a `RealtimeASR` instance
(`__init__`, src lines 46-76).  `streamOpen` models `self.stream` being a
live `sd.InputStream`; `threadStarted` models `self.process_thread` being a
started thread. -/
structure EngineState where
  sampleRate : Nat
  bufCapacity : Nat
  minSamples : Nat
  vadThreshold : ℚ
  accumulateMode : Bool
  buffer : List ℚ
  accumulatedAudio : List (List ℚ)
  running : Bool
  paused : Bool
  recording : Bool
  lastText : String
  streamOpen : Bool
  threadStarted : Bool
  accumulatedText : List String
  audioLevel : ℚ
  isSpeech : Bool
deriving DecidableEq, Repr

/-- `RealtimeASR.__init__` (src lines 26-76): fresh engine state.
Note line 62 of the source: `self.recording = True` on construction. -/
def initState (sampleRate : Nat) (bufferSeconds minAudioSeconds vadThreshold : ℚ)
    (accumulateMode : Bool) : EngineState :=
  { sampleRate := sampleRate
    bufCapacity := pyTrunc ((sampleRate : ℚ) * bufferSeconds)
    minSamples := pyTrunc ((sampleRate : ℚ) * minAudioSeconds)
    vadThreshold := vadThreshold
    accumulateMode := accumulateMode
    buffer := []
    accumulatedAudio := []
    running := false
    paused := false
    recording := true
    lastText := ""
    streamOpen := false
    threadStarted := false
    accumulatedText := []
    audioLevel := 0
    isSpeech := false }

/-- One `collections.deque(maxlen := cap)` append: the new element goes on the
right; when the deque is full the leftmost (oldest) element is discarded.
Uniform formulation: keep the rightmost `cap` elements of `buf ++ [x]`. -/
def dequeAppend (cap : Nat) (buf : List ℚ) (x : ℚ) : List ℚ :=
  (buf ++ [x]).drop (buf.length + 1 - cap)

/-- `deque.extend(chunk)` on a bounded deque: elementwise append
(this is exactly CPython's semantics for `extend` with a `maxlen`).
Used by the capture callback, src line 97: `self.buffer.extend(audio_chunk)`. -/
def dequeExtend (cap : Nat) (buf : List ℚ) (chunk : List ℚ) : List ℚ :=
  chunk.foldl (dequeAppend cap) buf

/-- A whole capture session's worth of pushes into an initially empty
`SampleBuffer` of capacity `cap`. -/
def pushAll (cap : Nat) (chunks : List (List ℚ)) : List ℚ :=
  chunks.foldl (dequeExtend cap) []

/-- The most recent `cap` samples of `l` (a suffix). -/
def windowed (cap : Nat) (l : List ℚ) : List ℚ := l.drop (l.length - cap)

/-- `RealtimeASR._audio_callback` (src lines 78-100), for one incoming chunk.
`rms` is the computed `np.sqrt(np.mean(audio_chunk ** 2))` level.
Lines 89-92: `is_speech = audio_level > vad_threshold` when
`vad_threshold > 0`, else `is_speech = True`.  Lines 95-100: only when
`recording` is true, extend the ring buffer and (in accumulate mode) append
the chunk to `accumulated_audio`, under the lock. -/
def audioCallback (s : EngineState) (chunk : List ℚ) (rms : ℚ) : EngineState :=
  let s1 := { s with
    audioLevel := rms
    isSpeech := if s.vadThreshold > 0 then decide (rms > s.vadThreshold) else true }
  if s1.recording then
    { s1 with
      buffer := dequeExtend s1.bufCapacity s1.buffer chunk
      accumulatedAudio :=
        if s1.accumulateMode then s1.accumulatedAudio ++ [chunk] else s1.accumulatedAudio }
  else s1

/-- The result-handling tail of one `_process_loop` iteration
(src lines 120-131), given the recognizer's outcome on the snapshot.
`Except.error` is a raised exception: it is caught, logged and absorbed
(lines 130-131), leaving the state unchanged.  On `Except.ok text`
(lines 122-129): if `text` is non-empty and differs from `last_text`,
`last_text` is updated first and then the result callback fires with `text`;
otherwise nothing is emitted.  The second component is the list of
`on_result` invocations of the iteration. -/
def processIter (s : EngineState) (res : Except String String) :
    EngineState × List String :=
  match res with
  | Except.error _ => (s, [])
  | Except.ok text =>
    if text ≠ "" ∧ text ≠ s.lastText then
      ({ s with lastText := text }, [text])
    else (s, [])

/-- Several consecutive `_process_loop` iterations, collecting all `on_result`
invocations in order. -/
def runOutputs (s : EngineState) (results : List (Except String String)) :
    EngineState × List String :=
  results.foldl (fun p r => ((processIter p.1 r).1, p.2 ++ (processIter p.1 r).2)) (s, [])

/-- `RealtimeASR.start` (src lines 144-172).  `openOk` is whether
`sd.InputStream(...)` construction/start succeeds; when it raises, the
exception escapes `start` (second component `true` = an exception was
surfaced to the caller).  Note the source order: lines 155-157 set
`running/paused/recording` BEFORE the stream is opened at lines 160-168. -/
def start (s : EngineState) (openOk : Bool) : EngineState × Bool :=
  if s.running then (s, false)
  else
    let s1 := { s with running := true, paused := false, recording := true }
    if openOk then
      ({ s1 with streamOpen := true, threadStarted := true }, false)
    else (s1, true)

/-- `RealtimeASR.stop` (src lines 174-191): clear `running`, close the stream,
join the thread, clear `self.buffer` under the lock, reset `last_text`.
The source does NOT touch `accumulated_audio`, `accumulated_text`,
`paused` or `recording` here. -/
def stop (s : EngineState) : EngineState :=
  { s with
    running := false
    streamOpen := false
    threadStarted := false
    buffer := []
    lastText := "" }

/-- `RealtimeASR.start_recording` (src lines 203-212). -/
def start_recording (s : EngineState) : EngineState :=
  { s with
    buffer := []
    accumulatedAudio := []
    lastText := ""
    recording := true }

/-- Result record of a `stop_recording` call: the post-state, the returned
string, the list of audio arrays the recognizer was invoked on (in order),
and the list of `on_segment_complete` invocations. -/
structure StopRecResult where
  state : EngineState
  returned : String
  recognizerCalls : List (List ℚ)
  segmentCallbacks : List String
deriving Repr

/-- Tail of `stop_recording` (src lines 244-250): if `final_text` is
non-empty (Python truthiness on a string), append it to `accumulated_text`
and fire `on_segment_complete`; return `final_text` either way. -/
def finalizeSeg (st : EngineState) (finalText : String) (calls : List (List ℚ)) :
    StopRecResult :=
  if finalText ≠ "" then
    { state := { st with accumulatedText := st.accumulatedText ++ [finalText] }
      returned := finalText
      recognizerCalls := calls
      segmentCallbacks := [finalText] }
  else
    { state := st, returned := finalText, recognizerCalls := calls, segmentCallbacks := [] }

/-- The `try: final_text = model.recognize(...) except: ...` pattern of
`stop_recording` (src lines 231-234 and 239-242): on an exception the
assignment never happens, so `final_text` keeps its prior value `""`. -/
def caughtText (r : Except String String) : String :=
  match r with
  | Except.ok t => t
  | Except.error _ => ""

/-- `RealtimeASR.stop_recording` (src lines 214-250).  Line 222:
`recording = False`.  Lines 227-242, under the lock: if accumulate mode is on
and `accumulated_audio` is non-empty, recognize the concatenation of all
accumulated chunks once and clear `accumulated_audio` (the clear happens even
when the recognizer raised, since the exception is caught at lines 233-234);
elif the ring buffer is non-empty, recognize its contents once; else no
recognizer call at all and `final_text` stays `""`. -/
def stop_recording (s0 : EngineState) (recog : List ℚ → Except String String) :
    StopRecResult :=
  let s := { s0 with recording := false }
  if s.accumulateMode && !s.accumulatedAudio.isEmpty then
    let fullAudio := s.accumulatedAudio.flatten
    finalizeSeg { s with accumulatedAudio := [] } (caughtText (recog fullAudio)) [fullAudio]
  else if s.buffer.length > 0 then
    let audio := s.buffer
    finalizeSeg s (caughtText (recog audio)) [audio]
  else
    finalizeSeg s "" []

/-- `RealtimeASR.is_recording` (src lines 252-254). -/
def is_recording (s : EngineState) : Bool := s.recording

/-- `RealtimeASR.get_accumulated_text` (src lines 258-260):
`" ".join(self.accumulated_text)`. -/
def get_accumulated_text (s : EngineState) : String :=
  String.intercalate " " s.accumulatedText

/-- `RealtimeASR.get_accumulated_segments` (src lines 262-264). -/
def get_accumulated_segments (s : EngineState) : List String :=
  s.accumulatedText

/-- Events on the shared mutex `self.lock` and recognizer invocations, for
stating the lock discipline of the two code paths that call
`model.recognize`. -/
inductive LockEvent where
  | acquire
  | release
  | recognize
deriving DecidableEq, Repr

/-- Scan state: current lock depth, and whether every recognizer invocation
seen so far happened at depth 0. -/
def lockScan : Nat × Bool → LockEvent → Nat × Bool
  | (d, ok), LockEvent.acquire => (d + 1, ok)
  | (d, ok), LockEvent.release => (d - 1, ok)
  | (d, ok), LockEvent.recognize => (d, ok && (d == 0))

/-- True iff every `recognize` event of the trace occurs while the mutex is
not held. -/
def recognizeOutsideLock (tr : List LockEvent) : Bool :=
  (tr.foldl lockScan (0, true)).2

/-- Lock/recognize trace of one `_process_loop` iteration that is past the
paused/recording guard (src lines 109-131): the lock is taken to snapshot the
buffer (line 110) and released at the end of the `with` block (line 112);
only afterwards, when the snapshot was big enough (`bigEnough`) and VAD
passed (`vadPass`), is the recognizer invoked (line 121). -/
def processIterTrace (bigEnough vadPass : Bool) : List LockEvent :=
  [LockEvent.acquire, LockEvent.release] ++
    (if bigEnough && vadPass then [LockEvent.recognize] else [])

/-- Lock/recognize trace of `stop_recording` finalization (src lines
227-243): the whole finalization, including the `model.recognize` calls at
lines 232 and 240, runs inside `with self.lock:`.  `accBranch` is
`accumulate_mode and accumulated_audio` (line 228); `bufBranch` is
`len(buffer) > 0` (line 236). -/
def stopRecTrace (accBranch bufBranch : Bool) : List LockEvent :=
  [LockEvent.acquire] ++
    (if accBranch then [LockEvent.recognize]
     else if bufBranch then [LockEvent.recognize] else []) ++
    [LockEvent.release]

/-! ## Helper lemmas about the bounded ring buffer -/

theorem dequeAppend_windowed (cap : Nat) (l : List ℚ) (x : ℚ) :
    dequeAppend cap (windowed cap l) x = windowed cap (l ++ [x]) := by
  unfold dequeAppend windowed
  have hle : l.length - cap ≤ l.length := Nat.sub_le _ _
  rw [← List.drop_append_of_le_length hle, List.drop_drop, List.length_drop,
    List.length_append]
  congr 1
  simp only [List.length_cons, List.length_nil]
  omega

theorem dequeExtend_windowed (cap : Nat) (chunk : List ℚ) :
    ∀ l : List ℚ, dequeExtend cap (windowed cap l) chunk = windowed cap (l ++ chunk) := by
  induction chunk with
  | nil => intro l; simp [dequeExtend]
  | cons x xs ih =>
    intro l
    show dequeExtend cap (dequeAppend cap (windowed cap l) x) xs = _
    rw [dequeAppend_windowed, ih (l ++ [x])]
    simp

theorem pushAll_windowed (cap : Nat) (chunks : List (List ℚ)) :
    pushAll cap chunks = windowed cap chunks.flatten := by
  have key : ∀ (cs : List (List ℚ)) (l : List ℚ),
      cs.foldl (dequeExtend cap) (windowed cap l) = windowed cap (l ++ cs.flatten) := by
    intro cs
    induction cs with
    | nil => intro l; simp
    | cons c cs ih =>
      intro l
      show cs.foldl (dequeExtend cap) (dequeExtend cap (windowed cap l) c) = _
      rw [dequeExtend_windowed, ih (l ++ c)]
      simp
  have h0 : ([] : List ℚ) = windowed cap [] := by simp [windowed]
  calc pushAll cap chunks = chunks.foldl (dequeExtend cap) (windowed cap []) := by
        rw [pushAll, ← h0]
    _ = windowed cap ([] ++ chunks.flatten) := key chunks []
    _ = windowed cap chunks.flatten := by simp

/-! ## Claim theorems -/

/-- C5: for every sequence of pushes into the `SampleBuffer` ring
(`deque(maxlen = cap)` fed by `buffer.extend(chunk)`), the buffer length
never exceeds the capacity, and the contents are exactly the most recent
`cap` samples of everything pushed so far (FIFO eviction of the oldest
samples). -/
theorem sampleBuffer_capacity_fifo (cap : Nat) (chunks : List (List ℚ)) :
    (pushAll cap chunks).length ≤ cap ∧
    pushAll cap chunks = windowed cap chunks.flatten := by
  refine ⟨?_, pushAll_windowed cap chunks⟩
  rw [pushAll_windowed]
  unfold windowed
  rw [List.length_drop]
  omega

/-- C8: the capture callback sets `isSpeech` so that, for the nonnegative RMS
values the code computes, `isSpeech = (vadThreshold == 0) or
(RMS > vadThreshold)`; in particular `vad_threshold == 0` makes `isSpeech`
true regardless of RMS. -/
theorem vad_formula (s : EngineState) (chunk : List ℚ) (rms : ℚ) (h : 0 ≤ rms) :
    (audioCallback s chunk rms).isSpeech
      = (decide (s.vadThreshold = 0) || decide (s.vadThreshold < rms)) ∧
    (s.vadThreshold = 0 → (audioCallback s chunk rms).isSpeech = true) := by
  have hspeech : (audioCallback s chunk rms).isSpeech
      = if s.vadThreshold > 0 then decide (rms > s.vadThreshold) else true := by
    by_cases hv : s.vadThreshold > 0 <;> by_cases hr : s.recording <;>
      simp [audioCallback, hv, hr]
  constructor
  · rw [hspeech]
    rcases lt_trichotomy s.vadThreshold 0 with hlt | heq | hgt
    · rw [if_neg (not_lt.mpr (le_of_lt hlt))]
      have h1 : decide (s.vadThreshold = 0) = false := by
        simp [ne_of_lt hlt]
      have h2 : decide (s.vadThreshold < rms) = true := by
        simp [lt_of_lt_of_le hlt h]
      rw [h1, h2]
      rfl
    · rw [heq]
      simp
    · rw [if_pos hgt]
      have h1 : decide (s.vadThreshold = 0) = false := by
        simp [ne_of_gt hgt]
      rw [h1]
      rfl
  · intro h0
    rw [hspeech, h0]
    simp

/-- C8 witness: concrete engine with `vad_threshold = 0` and RMS `1`:
`isSpeech` comes out true. -/
theorem vad_formula_witness :
    (0 : ℚ) ≤ 1 ∧
    (audioCallback (initState 16000 3 (3/2) 0 false) [] 1).isSpeech = true :=
  ⟨by norm_num, (vad_formula (initState 16000 3 (3/2) 0 false) [] 1 (by norm_num)).2 rfl⟩

/-- C9 counterexample: on a freshly constructed engine (all defaults,
`__init__` line 62 sets `self.recording = True`), `is_recording()` does NOT
return false, contrary to the claim. -/
theorem fresh_engine_cex :
    ¬ (is_recording (initState 16000 3 (3/2) (1/100) false) = false) := by
  decide

/-- C9 (amended): a freshly constructed engine has `running = false` and
`paused = false`, but `recording` is initialized to `true` (the capture path
is armed for continuous mode), so `is_recording()` returns true before
`start()`/`start_recording()` is ever called. -/
theorem fresh_engine_state (sr : Nat) (bs mas vt : ℚ) (am : Bool) :
    (initState sr bs mas vt am).running = false ∧
    (initState sr bs mas vt am).paused = false ∧
    is_recording (initState sr bs mas vt am) = true :=
  ⟨rfl, rfl, rfl⟩

/-- C6: in the streaming loop, a successful recognizer result fires the
`on_result` callback iff it is non-empty and differs from `last_text`, and
exactly then `last_text` has been updated to the new text (the update at
line 123 precedes the callback at line 126); consequently two consecutive
identical non-empty recognizer outputs emit exactly one `on_result`
invocation. -/
theorem dedup_result_dispatch (s : EngineState) (t : String) :
    ((processIter s (Except.ok t)).2 = [t] ∧ (processIter s (Except.ok t)).1.lastText = t
      ↔ t ≠ "" ∧ t ≠ s.lastText) ∧
    ((processIter s (Except.ok t)).2 = [] ↔ t = "" ∨ t = s.lastText) ∧
    (t ≠ "" → t ≠ s.lastText → (runOutputs s [Except.ok t, Except.ok t]).2 = [t]) := by
  by_cases h1 : t = ""
  · subst h1
    simp [processIter, runOutputs]
  · by_cases h2 : t = s.lastText
    · simp [processIter, runOutputs, h1, h2]
    · simp [processIter, runOutputs, h1, h2]

/-- C6 witness: a fresh session (`last_text = ""`) in which the recognizer
returns `"hello"` twice yields exactly one `on_result` invocation. -/
theorem dedup_result_dispatch_witness :
    "hello" ≠ "" ∧ "hello" ≠ (initState 16000 3 (3/2) (1/100) false).lastText ∧
    (runOutputs (initState 16000 3 (3/2) (1/100) false)
      [Except.ok "hello", Except.ok "hello"]).2 = ["hello"] :=
  ⟨by decide, by decide,
    (dedup_result_dispatch (initState 16000 3 (3/2) (1/100) false) "hello").2.2
      (by decide) (by decide)⟩

/-- C7: a recognizer exception during push-to-talk finalization is absorbed:
`stop_recording` returns `""`, appends nothing to the segment history and
fires no segment callback; a recognizer exception in the streaming loop is
likewise absorbed, leaving the state unchanged and emitting nothing, so the
loop simply continues with its next iteration. -/
theorem recognizer_error_absorbed (s : EngineState) (msg : String) :
    (stop_recording s (fun _ => Except.error msg)).returned = "" ∧
    (stop_recording s (fun _ => Except.error msg)).state.accumulatedText
      = s.accumulatedText ∧
    (stop_recording s (fun _ => Except.error msg)).segmentCallbacks = [] ∧
    (processIter s (Except.error msg)).1 = s ∧
    (processIter s (Except.error msg)).2 = [] := by
  refine ⟨?_, ?_, ?_, rfl, rfl⟩ <;>
    · unfold stop_recording
      by_cases h1 : s.accumulateMode <;> by_cases h2 : s.accumulatedAudio.isEmpty <;>
        by_cases h3 : s.buffer.length > 0 <;>
          simp [h1, h2, h3, finalizeSeg, caughtText]

/-- C1 counterexample: the accumulate-mode finalization path of
`stop_recording` (source lines 227-235) invokes the recognizer strictly
inside `with self.lock:`, so it is false that every code path calling the
recognizer releases the mutex first. -/
theorem lock_across_recognize_cex :
    recognizeOutsideLock (stopRecTrace true false) = false := by
  decide

/-- C1 (amended): the background recognition loop copies its snapshot and
releases the mutex before calling the recognizer; `stop_recording`
finalization, by contrast, performs its recognizer invocation (whenever one
happens at all) while holding the shared mutex. -/
theorem lock_discipline (bigEnough vadPass accBranch bufBranch : Bool) :
    recognizeOutsideLock (processIterTrace bigEnough vadPass) = true ∧
    (LockEvent.recognize ∈ stopRecTrace accBranch bufBranch →
      recognizeOutsideLock (stopRecTrace accBranch bufBranch) = false) := by
  cases bigEnough <;> cases vadPass <;> cases accBranch <;> cases bufBranch <;>
    exact ⟨by decide, by decide⟩

/-- C1 witness: the push-to-talk finalization that recognizes the
accumulated audio does contain a recognizer invocation, and that invocation
happens under the lock. -/
theorem lock_discipline_witness :
    recognizeOutsideLock (processIterTrace true true) = true ∧
    (LockEvent.recognize ∈ stopRecTrace true false) ∧
    recognizeOutsideLock (stopRecTrace true false) = false :=
  ⟨(lock_discipline true true true false).1, by decide,
    (lock_discipline true true true false).2 (by decide)⟩

/-- C2: on a fresh engine, a `start()` whose device open fails surfaces the
exception to the caller and starts neither the stream nor the background
thread, but `running` has already been set to `true` at source line 155 and
is never rolled back, so the engine is NOT left in the Idle state the claim
(and the spec) require: `is_active()` now reports true and any retry of
`start()` refuses with "already running". -/
theorem start_fail_leaves_running :
    (start (initState 16000 3 (3/2) (1/100) false) false).2 = true ∧
    (start (initState 16000 3 (3/2) (1/100) false) false).1.running = true ∧
    (start (initState 16000 3 (3/2) (1/100) false) false).1.streamOpen = false ∧
    (start (initState 16000 3 (3/2) (1/100) false) false).1.threadStarted = false := by
  decide

/-- C3 counterexample: calling `stop()` in a state where accumulate mode has
collected one chunk leaves `accumulated_audio` non-empty — the source's
`stop` (lines 174-191) clears only `self.buffer` and `last_text`, never
`accumulated_audio`. -/
theorem stop_accumulation_cex :
    ¬ ((stop { initState 16000 3 (3/2) (1/100) true with
        accumulatedAudio := [[1]] }).accumulatedAudio = []) := by
  decide

/-- C3 (amended): after `stop()`, from any state, the `SampleBuffer` is
empty and `lastText` is the empty string (and `running` is false), but the
`AccumulationLog` is left exactly as it was: `stop()` does not clear it. -/
theorem stop_clears_buffer_and_text (s : EngineState) :
    (stop s).buffer = [] ∧ (stop s).lastText = "" ∧ (stop s).running = false ∧
    (stop s).accumulatedAudio = s.accumulatedAudio :=
  ⟨rfl, rfl, rfl, rfl⟩

/-- C10 counterexample: `stop()` does not reset the `AccumulationLog`, so
the claim's "only SampleBuffer, AccumulationLog, and lastText are reset" is
false: here the log still holds its chunk after `stop()`. -/
theorem stop_frame_cex :
    ¬ ((stop { initState 8000 2 1 0 true with
        accumulatedAudio := [[2, 3]] }).accumulatedAudio = []) := by
  decide

/-- C10 (amended): `stop()` leaves the completed-segment history unchanged —
`get_accumulated_text` and `get_accumulated_segments` return the same values
before and after — and resets only `SampleBuffer` and `lastText`; the
`AccumulationLog` and the `recording`/`paused` flags are untouched. -/
theorem stop_frame (s : EngineState) :
    get_accumulated_text (stop s) = get_accumulated_text s ∧
    get_accumulated_segments (stop s) = get_accumulated_segments s ∧
    (stop s).buffer = [] ∧ (stop s).lastText = "" ∧
    (stop s).accumulatedAudio = s.accumulatedAudio ∧
    (stop s).recording = s.recording ∧ (stop s).paused = s.paused :=
  ⟨rfl, rfl, rfl, rfl, rfl, rfl, rfl⟩

/-! ## Helper lemmas about `finalizeSeg` and the branches of `stop_recording` -/

theorem finalizeSeg_state_recording (st : EngineState) (t : String) (c : List (List ℚ)) :
    (finalizeSeg st t c).state.recording = st.recording := by
  unfold finalizeSeg
  split <;> rfl

theorem finalizeSeg_state_accAudio (st : EngineState) (t : String) (c : List (List ℚ)) :
    (finalizeSeg st t c).state.accumulatedAudio = st.accumulatedAudio := by
  unfold finalizeSeg
  split <;> rfl

theorem finalizeSeg_returned (st : EngineState) (t : String) (c : List (List ℚ)) :
    (finalizeSeg st t c).returned = t := by
  unfold finalizeSeg
  split <;> rfl

theorem finalizeSeg_calls (st : EngineState) (t : String) (c : List (List ℚ)) :
    (finalizeSeg st t c).recognizerCalls = c := by
  unfold finalizeSeg
  split <;> rfl

theorem finalizeSeg_text_pos (st : EngineState) (t : String) (c : List (List ℚ))
    (h : t ≠ "") :
    (finalizeSeg st t c).state.accumulatedText = st.accumulatedText ++ [t] ∧
    (finalizeSeg st t c).segmentCallbacks = [t] := by
  simp [finalizeSeg, h]

theorem finalizeSeg_text_zero (st : EngineState) (t : String) (c : List (List ℚ))
    (h : t = "") :
    (finalizeSeg st t c).state.accumulatedText = st.accumulatedText ∧
    (finalizeSeg st t c).segmentCallbacks = [] := by
  simp [finalizeSeg, h]

theorem stop_recording_acc_branch (s : EngineState)
    (recog : List ℚ → Except String String)
    (hacc : s.accumulateMode = true) (haud : s.accumulatedAudio ≠ []) :
    stop_recording s recog =
      finalizeSeg { s with recording := false, accumulatedAudio := [] }
        (caughtText (recog s.accumulatedAudio.flatten)) [s.accumulatedAudio.flatten] := by
  unfold stop_recording
  simp [hacc, haud]

theorem stop_recording_buf_branch (s : EngineState)
    (recog : List ℚ → Except String String)
    (hneg : s.accumulateMode = false ∨ s.accumulatedAudio = [])
    (hbuf : s.buffer ≠ []) :
    stop_recording s recog =
      finalizeSeg { s with recording := false }
        (caughtText (recog s.buffer)) [s.buffer] := by
  unfold stop_recording
  rcases hneg with h | h <;>
    simp [h, List.length_pos.mpr hbuf]

theorem stop_recording_empty_branch (s : EngineState)
    (recog : List ℚ → Except String String)
    (hneg : s.accumulateMode = false ∨ s.accumulatedAudio = [])
    (hbuf : s.buffer = []) :
    stop_recording s recog = finalizeSeg { s with recording := false } "" [] := by
  unfold stop_recording
  rcases hneg with h | h <;> simp [h, hbuf]

/-- C4 counterexample: on a fresh engine (accumulate mode off, empty ring
buffer) `stop_recording()` invokes the recognizer ZERO times, not "exactly
once on the current SampleBuffer contents" as the claim states — the `elif
len(self.buffer) > 0` guard at line 236 skips the call entirely. -/
theorem stop_recording_once_cex :
    ¬ ((stop_recording (initState 16000 3 (3/2) (1/100) false)
        (fun _ => Except.ok "x")).recognizerCalls.length = 1) := by
  decide

/-- C4 (amended): `stop_recording()` sets `recording` to false and finalizes
synchronously: if accumulate mode is active and the AccumulationLog is
non-empty, the recognizer is invoked exactly once with the concatenation of
all accumulated chunks in order; otherwise, the recognizer is invoked
exactly once on the current SampleBuffer contents when that buffer is
non-empty, and is not invoked at all when it is empty (in which case the
empty string is returned); afterwards the AccumulationLog is empty — this
holds in every reachable state, since chunks are only ever accumulated while
accumulate mode is on, which is the invariant hypothesis
`accumulateMode = false → accumulatedAudio = []` below; a non-empty result
is appended to the segment history and passed to the segment-complete
callback, and the result is returned to the caller either way. -/
theorem stop_recording_finalize (s : EngineState)
    (recog : List ℚ → Except String String) :
    (stop_recording s recog).state.recording = false ∧
    ((s.accumulateMode = false → s.accumulatedAudio = []) →
      (stop_recording s recog).state.accumulatedAudio = []) ∧
    (s.accumulateMode = true → s.accumulatedAudio ≠ [] →
      (stop_recording s recog).recognizerCalls = [s.accumulatedAudio.flatten] ∧
      (stop_recording s recog).state.accumulatedAudio = []) ∧
    ((s.accumulateMode = false ∨ s.accumulatedAudio = []) → s.buffer ≠ [] →
      (stop_recording s recog).recognizerCalls = [s.buffer]) ∧
    ((s.accumulateMode = false ∨ s.accumulatedAudio = []) → s.buffer = [] →
      (stop_recording s recog).recognizerCalls = [] ∧
      (stop_recording s recog).returned = "") ∧
    ((stop_recording s recog).returned ≠ "" →
      (stop_recording s recog).state.accumulatedText
        = s.accumulatedText ++ [(stop_recording s recog).returned] ∧
      (stop_recording s recog).segmentCallbacks = [(stop_recording s recog).returned]) ∧
    ((stop_recording s recog).returned = "" →
      (stop_recording s recog).state.accumulatedText = s.accumulatedText ∧
      (stop_recording s recog).segmentCallbacks = []) := by
  by_cases hac : s.accumulateMode = true ∧ s.accumulatedAudio ≠ []
  · obtain ⟨hacc, haud⟩ := hac
    rw [stop_recording_acc_branch s recog hacc haud]
    refine ⟨finalizeSeg_state_recording _ _ _,
      fun _ => finalizeSeg_state_accAudio _ _ _,
      fun _ _ => ⟨finalizeSeg_calls _ _ _, finalizeSeg_state_accAudio _ _ _⟩,
      ?_, ?_, ?_, ?_⟩
    · rintro (h | h) _
      · rw [hacc] at h; exact absurd h (by simp)
      · exact absurd h haud
    · rintro (h | h) _
      · rw [hacc] at h; exact absurd h (by simp)
      · exact absurd h haud
    · intro hret
      rw [finalizeSeg_returned] at hret ⊢
      exact finalizeSeg_text_pos _ _ _ hret
    · intro hret
      rw [finalizeSeg_returned] at hret
      exact finalizeSeg_text_zero _ _ _ hret
  · have hneg : s.accumulateMode = false ∨ s.accumulatedAudio = [] := by
      by_cases h : s.accumulateMode = true
      · right
        by_contra hne
        exact hac ⟨h, hne⟩
      · left
        exact Bool.not_eq_true _ ▸ Bool.eq_false_iff.mpr (fun hb => h hb)
    by_cases hbuf : s.buffer = []
    · rw [stop_recording_empty_branch s recog hneg hbuf]
      refine ⟨finalizeSeg_state_recording _ _ _, ?_, ?_, ?_, ?_, ?_, ?_⟩
      · intro hinv
        have ha : s.accumulatedAudio = [] := by
          rcases hneg with h | h
          · exact hinv h
          · exact h
        exact (finalizeSeg_state_accAudio _ _ _).trans ha
      · rintro hacc haud
        rcases hneg with h | h
        · rw [hacc] at h; exact absurd h (by simp)
        · exact absurd h haud
      · intro _ hne
        exact absurd hbuf hne
      · intro _ _
        exact ⟨finalizeSeg_calls _ _ _, finalizeSeg_returned _ _ _⟩
      · intro hret
        rw [finalizeSeg_returned] at hret
        exact absurd rfl hret
      · intro _
        exact finalizeSeg_text_zero _ _ _ rfl
    · rw [stop_recording_buf_branch s recog hneg hbuf]
      refine ⟨finalizeSeg_state_recording _ _ _, ?_, ?_, fun _ _ => finalizeSeg_calls _ _ _,
        ?_, ?_, ?_⟩
      · intro hinv
        have ha : s.accumulatedAudio = [] := by
          rcases hneg with h | h
          · exact hinv h
          · exact h
        exact (finalizeSeg_state_accAudio _ _ _).trans ha
      · rintro hacc haud
        rcases hneg with h | h
        · rw [hacc] at h; exact absurd h (by simp)
        · exact absurd h haud
      · intro _ hb
        exact absurd hb hbuf
      · intro hret
        rw [finalizeSeg_returned] at hret ⊢
        exact finalizeSeg_text_pos _ _ _ hret
      · intro hret
        rw [finalizeSeg_returned] at hret
        exact finalizeSeg_text_zero _ _ _ hret

/-- C4 witness: accumulate mode with three accumulated chunks and a
recognizer answering `"seg"`: exactly one recognizer invocation on the
in-order concatenation, the AccumulationLog is cleared, `recording` is
false, and the segment callback fires with the returned text. -/
theorem stop_recording_finalize_witness :
    (stop_recording { initState 16000 3 (3/2) (1/100) true with
        accumulatedAudio := [[1, 2], [3], [4, 5, 6]] }
      (fun _ => Except.ok "seg")).recognizerCalls = [[1, 2, 3, 4, 5, 6]] ∧
    (stop_recording { initState 16000 3 (3/2) (1/100) true with
        accumulatedAudio := [[1, 2], [3], [4, 5, 6]] }
      (fun _ => Except.ok "seg")).state.accumulatedAudio = [] ∧
    (stop_recording { initState 16000 3 (3/2) (1/100) true with
        accumulatedAudio := [[1, 2], [3], [4, 5, 6]] }
      (fun _ => Except.ok "seg")).state.recording = false ∧
    (stop_recording { initState 16000 3 (3/2) (1/100) true with
        accumulatedAudio := [[1, 2], [3], [4, 5, 6]] }
      (fun _ => Except.ok "seg")).segmentCallbacks = ["seg"] := by
  have h := stop_recording_finalize
    { initState 16000 3 (3/2) (1/100) true with accumulatedAudio := [[1, 2], [3], [4, 5, 6]] }
    (fun _ => Except.ok "seg")
  have hcalls := h.2.2.1 rfl (by decide)
  have hlog := h.2.1 (by decide)
  have hret : (stop_recording { initState 16000 3 (3/2) (1/100) true with
      accumulatedAudio := [[1, 2], [3], [4, 5, 6]] }
      (fun _ => Except.ok "seg")).returned = "seg" := by decide
  have hcb := h.2.2.2.2.2.1 (by rw [hret]; decide)
  refine ⟨by simpa using hcalls.1, hlog, h.1, ?_⟩
  rw [hret] at hcb
  exact hcb.2

end RealtimeASR
